import Mathlib

/-!
Verification of the Bayronik training core (bayronik-model) against its
specification.  The Python sources are shallowly embedded:

* `scripts/dataset.py`       → `Bayronik.CAMELSDataset`
* `scripts/dataset_hdf5.py`  → `Bayronik.CAMELSDatasetHDF5`
* `train.py`                 → `Bayronik.train_model` and its helpers
* `exporter.py`              → `Bayronik.export_model_to_torchscript`
* `config.py`                → the constant definitions (`SUITE`, `BATCH_SIZE`, ...)

Filesystem contents are passed explicitly as environment records; Python
exceptions are modelled with `Except`; IEEE-754 single/double values are
modelled by `FVal` (a classification into nan / ±infinity / finite, the
finite case carrying a rational payload).
-/

namespace Bayronik

/-- Model of an IEEE-754 floating point value as stored in the map arrays:
either a non-numeric class (`nan`, `inf`, `ninf`) or a finite value with a
rational payload. -/
inductive FVal where
  | nan
  | inf
  | ninf
  | fin (q : ℚ)
deriving DecidableEq, Repr

/-- Payload of `log1p` on a finite argument `q > -1`.  The true value
`log (1 + q)` is irrational, so the model keeps the pre-image as the
payload: every specification claim about the transform depends only on the
IEEE classification of the result (finite / infinite / nan) and on
bit-equality of results of equal inputs, both of which are invariant under
the choice of this payload function. -/
def log1pVal (q : ℚ) : ℚ := q

/-- Model of `np.log1p`, elementwise: nan propagates, `log1p inf = inf`,
`log1p` of a value below -1 is nan, of exactly -1 is -infinity, and of any
finite value above -1 is finite. -/
def log1p : FVal → FVal
  | .nan => .nan
  | .inf => .inf
  | .ninf => .nan
  | .fin q => if q < -1 then .nan else if q = -1 then .ninf else .fin (log1pVal q)

/-- Whether a float value is finite (neither nan nor an infinity). -/
def FVal.isFinite : FVal → Bool
  | .fin _ => true
  | _ => false

/-- A 2D map (height × width grid of float values), one simulation instance. -/
abbrev Map2D : Type := List (List FVal)

/-- A tensor with a leading channel dimension: a list of 2D maps. -/
abbrev Tensor : Type := List Map2D

/-- Elementwise `np.log1p` over a whole 2D map. -/
def mapLog1p (m : Map2D) : Map2D := m.map (fun row => row.map log1p)

/-- Model of `torch.from_numpy(m).unsqueeze(0)`: insert a leading channel
dimension of size 1. -/
def unsqueeze0 (m : Map2D) : Tensor := [m]

/-- The sample transform shared verbatim by `CAMELSDataset.__getitem__` and
`CAMELSDatasetHDF5.__getitem__`: `np.log1p` on input and target maps, then a
leading channel dimension of size 1 on each. -/
def prepare (input_map target_map : Map2D) : Tensor × Tensor :=
  (unsqueeze0 (mapLog1p input_map), unsqueeze0 (mapLog1p target_map))

/-- Python exceptions raised by the embedded code. -/
inductive PyError where
  | fileNotFound (msg : String)
  | valueError (msg : String)
  | indexError
  | zeroDivision
deriving DecidableEq, Repr

/-- Python/numpy indexing `l[i]` for a non-negative index: the element when
in range, `IndexError` otherwise. -/
def pyGet {α : Type} (l : List α) (i : Nat) : Except PyError α :=
  if h : i < l.length then .ok (l.get ⟨i, h⟩) else .error .indexError

/-- Environment seen by `CAMELSDataset.__init__`: whether the two `.npy`
archives exist, and the arrays they hold (already converted to float32, as
`np.load(...).astype(np.float32)` produces). -/
structure NpyEnv where
  inputExists : Bool
  targetExists : Bool
  inputMaps : List Map2D
  targetMaps : List Map2D
deriving DecidableEq, Repr

/-- State of a constructed `CAMELSDataset` (the flat-array `.npy` backend):
both whole archives held in memory. -/
structure CAMELSDataset where
  input_maps : List Map2D
  target_maps : List Map2D
deriving DecidableEq, Repr

/-- Embedding of `CAMELSDataset.__init__` (scripts/dataset.py): raise
`FileNotFoundError` when either `.npy` file is missing, load both arrays,
then raise `ValueError` when their leading dimensions differ. -/
def CAMELSDataset.init (env : NpyEnv) : Except PyError CAMELSDataset :=
  if !env.inputExists || !env.targetExists then
    .error (.fileNotFound "Could not find required .npy files")
  else
    let ds : CAMELSDataset := { input_maps := env.inputMaps, target_maps := env.targetMaps }
    if ds.input_maps.length ≠ ds.target_maps.length then
      .error (.valueError "Input and target files have a different number of maps!")
    else
      .ok ds

/-- Embedding of `CAMELSDataset.__len__`. -/
def CAMELSDataset.len (ds : CAMELSDataset) : Nat := ds.input_maps.length

/-- Embedding of `CAMELSDataset.__getitem__`, in state-passing style: the
method reads `self.input_maps` / `self.target_maps`, applies the transform,
and returns the prepared tensor pair together with the (unchanged) object
state. -/
def CAMELSDataset.getitem (ds : CAMELSDataset) (idx : Nat) :
    Except PyError (Tensor × Tensor) × CAMELSDataset :=
  ((do
    let input_map ← pyGet ds.input_maps idx
    let target_map ← pyGet ds.target_maps idx
    pure (prepare input_map target_map)), ds)

/-- Environment seen by `CAMELSDatasetHDF5`: whether each HDF5 archive
exists, and the named dataset each holds (`Maps_Mcdm` in the input archive,
`Maps_Mtot` in the target archive), as float32 arrays. -/
structure H5Env where
  inputExists : Bool
  targetExists : Bool
  inputData : List Map2D
  targetData : List Map2D
deriving DecidableEq, Repr

/-- State of a constructed `CAMELSDatasetHDF5`.  `n_simulations` is read
from the input archive; the caches are populated exactly when
`cache_in_memory` was requested at construction. -/
structure CAMELSDatasetHDF5 where
  n_simulations : Nat
  cache_in_memory : Bool
  input_cache : Option (List Map2D)
  target_cache : Option (List Map2D)
deriving DecidableEq, Repr

/-- Embedding of `CAMELSDatasetHDF5.__init__` (scripts/dataset_hdf5.py):
raise `FileNotFoundError` for a missing input archive, then for a missing
target archive; read `n_simulations` from the *input* archive's
`Maps_Mcdm` dataset; when `cache_in_memory`, load both named datasets into
memory.  Note: the constructor performs no comparison between the input and
target archives' sample counts. -/
def CAMELSDatasetHDF5.init (env : H5Env) (cache_in_memory : Bool) :
    Except PyError CAMELSDatasetHDF5 :=
  if !env.inputExists then
    .error (.fileNotFound "Input HDF5 file not found")
  else if !env.targetExists then
    .error (.fileNotFound "Target HDF5 file not found")
  else
    .ok { n_simulations := env.inputData.length
          cache_in_memory := cache_in_memory
          input_cache := if cache_in_memory then some env.inputData else none
          target_cache := if cache_in_memory then some env.targetData else none }

/-- Embedding of `CAMELSDatasetHDF5.__len__`. -/
def CAMELSDatasetHDF5.len (ds : CAMELSDatasetHDF5) : Nat := ds.n_simulations

/-- Embedding of `CAMELSDatasetHDF5.__getitem__`: in cached mode index into
the in-memory caches (`Option.getD []` stands for the `None` value the
constructor leaves when caching is off; that branch is unreachable for
objects built by `init`), in lazy mode reopen each archive and slice index
`idx`; then apply the shared transform. -/
def CAMELSDatasetHDF5.getitem (env : H5Env) (ds : CAMELSDatasetHDF5) (idx : Nat) :
    Except PyError (Tensor × Tensor) :=
  if ds.cache_in_memory then do
    let input_map ← pyGet (ds.input_cache.getD []) idx
    let target_map ← pyGet (ds.target_cache.getD []) idx
    pure (prepare input_map target_map)
  else do
    let input_map ← pyGet env.inputData idx
    let target_map ← pyGet env.targetData idx
    pure (prepare input_map target_map)

/-- Whether an `Except` result is a normal (non-raising) result. -/
def exOk {ε α : Type} : Except ε α → Bool
  | .ok _ => true
  | .error _ => false

/-- Simulation suite selected in config.py. -/
def SUITE : String := "IllustrisTNG"

/-- Dataset type selected in config.py. -/
def DATASET_TYPE : String := "CV"

/-- Model file name from config.py (`unet_<suite>_<type>_v1.pth`, lowercased). -/
def MODEL_NAME : String := "unet_" ++ SUITE.toLower ++ "_" ++ DATASET_TYPE.toLower ++ "_v1.pth"

/-- Weights directory from config.py; the runtime-dependent absolute
`BASE_DIR` prefix is elided, which affects no claim. -/
def WEIGHTS_DIR : String := "weights"

/-- Path of the final checkpoint (`WEIGHTS_DIR/MODEL_NAME`), written by
`train_model` at run end and read by the exporter. -/
def weightsPath : String := WEIGHTS_DIR ++ "/" ++ MODEL_NAME

/-- Path of the best-so-far checkpoint (`WEIGHTS_DIR/best_<MODEL_NAME>`). -/
def bestModelPath : String := WEIGHTS_DIR ++ "/" ++ ("best_" ++ MODEL_NAME)

/-- Path of the exported TorchScript graph. -/
def exportPath : String := WEIGHTS_DIR ++ "/" ++ "traced_unet_model.pt"

/-- Observable actions of the export pipeline. -/
inductive ExportAction where
  | loadCheckpoint (path : String)
  | traceModel
  | writeGraph (path : String)
  | trainFallback
deriving DecidableEq, Repr

/-- Outcome of a normal (non-raising) return of the exporter: the messages
it printed and the actions it performed. -/
structure ExportResult where
  log : List String
  actions : List ExportAction
deriving DecidableEq, Repr

/-- Exceptions the export pipeline could raise. -/
inductive ExportError where
  | checkpointNotFound (path : String)
deriving DecidableEq, Repr

/-- Environment seen by the exporter: whether the trained-weights file
exists on disk. -/
structure ExportEnv where
  weightsFileExists : Bool
deriving DecidableEq, Repr

/-- Embedding of `export_model_to_torchscript` (exporter.py): when the
weights file is missing, print an error naming the expected path plus a
corrective hint and return normally (the function body is
`print(...); print(...); return`); otherwise load the checkpoint, trace the
model once on the probe input, and save the traced graph to `exportPath`. -/
def export_model_to_torchscript (env : ExportEnv) : Except ExportError ExportResult :=
  if !env.weightsFileExists then
    .ok { log := ["Error: Trained weights file not found at " ++ weightsPath,
                  "Please run train.py to train and save the model first."]
          actions := [] }
  else
    .ok { log := ["Loading trained weights from: " ++ weightsPath,
                  "Model traced successfully."]
          actions := [.loadCheckpoint weightsPath, .traceModel, .writeGraph exportPath] }

/-- A linear congruential step: the pseudo-random word stream underlying the
model of `torch.randperm`.  `torch.randperm` with a fixed generator state is
a deterministic function of that state; the claims depend only on
determinism and on the result being a permutation, so any concrete
deterministic stream is a faithful model. -/
def lcg (s : Nat) : Nat := (s * 1664525 + 1013904223) % 4294967296

/-- Modelled from the spec and the torch library: `randperm` draws, at each
step, a pseudo-random remaining element of the pool.  `drawPerm k pool s`
draws `k` elements. -/
def drawPerm : Nat → List Nat → Nat → List Nat
  | 0, _, _ => []
  | k + 1, pool, s =>
    if h : 0 < pool.length then
      let v := pool.get ⟨s % pool.length, Nat.mod_lt _ h⟩
      v :: drawPerm k (pool.erase v) (lcg s)
    else []

/-- Model of `torch.randperm n` under generator state `seed`. -/
def randperm (n : Nat) (seed : Nat) : List Nat := drawPerm n (List.range n) seed

/-- Embedding of `torch.utils.data.random_split(dataset, [train_size,
val_size])`: a random permutation of all indices, the first `train_size` of
which form the training subset and the next `val_size` the validation
subset. -/
def random_split (n train_size val_size seed : Nat) : List Nat × List Nat :=
  let indices := randperm n seed
  (indices.take train_size, (indices.drop train_size).take val_size)

/-- Validation subset size in train.py: `int(len(full_dataset) * 0.1)`.
For every length below 2^53 / 10 the float expression `int(n * 0.1)`
equals `⌊n / 10⌋` (the IEEE product `n * 0.1` always lies in
`[n/10, n/10 + 1)`), so natural division by 10 is the faithful model. -/
def valSize (n : Nat) : Nat := n / 10

/-- The train/validation split performed by `train_model` (train.py lines
35--37): `val_size = int(n * 0.1)`, `train_size = n - val_size`,
`random_split(full_dataset, [train_size, val_size])`. -/
def trainSplit (n seed : Nat) : List Nat × List Nat :=
  random_split n (n - valSize n) (valSize n) seed

/-- Number of training epochs (config.py). -/
def NUM_EPOCHS : Nat := 15

/-- Mini-batch size (config.py). -/
def BATCH_SIZE : Nat := 4

/-- Number of batches a `DataLoader` over `size` samples yields per epoch
(`drop_last` is off, so the final batch may be short):
`ceil(size / BATCH_SIZE)`. -/
def numBatches (size : Nat) : Nat := (size + BATCH_SIZE - 1) / BATCH_SIZE

/-- Environment of one training run: the dataset length, the generator
state used by the split, the per-epoch per-batch loss values produced by
the opaque model capability (`loss.item()` for training and validation
batches), and whether the disk fails the final checkpoint write. -/
structure TrainEnv where
  n : Nat
  seed : Nat
  trainBatchLoss : Nat → Nat → ℚ
  valBatchLoss : Nat → Nat → ℚ
  finalWriteFails : Bool

/-- Filesystem operations the orchestrator can perform.  `rename` is the
primitive an atomic write-to-temp-then-rename discipline would use; it is
part of the vocabulary so that its absence from a run's trace is a
statement about the code. -/
inductive FileOp where
  | makedirs (path : String)
  | write (path : String) (snapshot : Nat)
  | rename (src dst : String)
deriving DecidableEq, Repr

/-- Mutable state threaded through the epoch loop of `train_model`:
`best_val_loss` (`none` models the initial `float('inf')`), the trace of
filesystem operations performed so far, and the error messages printed. -/
structure RunState where
  best_val_loss : Option ℚ
  ops : List FileOp
  log : List String
deriving DecidableEq, Repr

/-- Comparison `avg_val_loss < best_val_loss` where the initial best is
`float('inf')`. -/
def ltBest (v : ℚ) : Option ℚ → Bool
  | none => true
  | some b => decide (v < b)

/-- Python float division by an integer count: raises `ZeroDivisionError`
on a zero divisor. -/
def pydiv (x : ℚ) (d : Nat) : Except PyError ℚ :=
  if d = 0 then .error .zeroDivision else .ok (x / (d : ℚ))

/-- Accumulated loss over the `k` batches of one phase of one epoch. -/
def sumLosses (f : Nat → ℚ) (k : Nat) : ℚ := ((List.range k).map f).sum

/-- The average validation loss `train_model` computes for epoch `e`
(defined for runs where the validation loader is non-empty). -/
def avgValLoss (env : TrainEnv) (e : Nat) : ℚ :=
  sumLosses (env.valBatchLoss e) (numBatches (valSize env.n)) /
    ((numBatches (valSize env.n) : ℚ))

/-- Embedding of one iteration of the epoch loop of `train_model`: the
training phase accumulates batch losses and divides by
`len(train_loader)`, the validation phase does the same with
`len(val_loader)`, and the checkpoint decision saves the parameter
snapshot to `bestModelPath` (after `os.makedirs`) exactly when the average
validation loss is strictly below the best seen so far. -/
def runEpoch (env : TrainEnv) (e : Nat) (st : RunState) : Except PyError RunState :=
  let train_size := env.n - valSize env.n
  match pydiv (sumLosses (env.trainBatchLoss e) (numBatches train_size)) (numBatches train_size) with
  | .error err => .error err
  | .ok _avg_train_loss =>
    match pydiv (sumLosses (env.valBatchLoss e) (numBatches (valSize env.n)))
        (numBatches (valSize env.n)) with
    | .error err => .error err
    | .ok avg_val_loss =>
      if ltBest avg_val_loss st.best_val_loss then
        .ok { st with
                best_val_loss := some avg_val_loss
                ops := st.ops ++ [.makedirs WEIGHTS_DIR, .write bestModelPath e] }
      else
        .ok st

/-- The epoch loop: run `runEpoch` over the given epoch indices in order. -/
def runEpochsFrom (env : TrainEnv) : List Nat → RunState → Except PyError RunState
  | [], st => .ok st
  | e :: rest, st => do runEpochsFrom env rest (← runEpoch env e st)

/-- Embedding of the final `try`/`except` block of `train_model`: attempt
to save the final checkpoint to `weightsPath` unconditionally; any
exception during the save is caught, an error message is printed, and the
run continues (the already-written files are untouched). -/
def finalizeRun (env : TrainEnv) (st : RunState) : RunState :=
  if env.finalWriteFails then
    { st with log := st.log ++ ["---! AN ERROR OCCURRED DURING SAVING !---",
                                "The model was NOT saved."] }
  else
    { st with ops := st.ops ++ [.makedirs WEIGHTS_DIR, .write weightsPath NUM_EPOCHS] }

/-- State at the start of the epoch loop: `best_val_loss = float('inf')`,
nothing written, nothing logged. -/
def initState : RunState := { best_val_loss := none, ops := [], log := [] }

/-- Embedding of `train_model` (train.py): split the dataset, run
`NUM_EPOCHS` epochs of train/validate/checkpoint-decision, then attempt
the unconditional final checkpoint write. -/
def train_model (env : TrainEnv) : Except PyError RunState := do
  let _split := trainSplit env.n env.seed
  let st ← runEpochsFrom env (List.range NUM_EPOCHS) initState
  pure (finalizeRun env st)

/-- The last snapshot written to path `p` in an operation trace (`none`
when the file was never written): the on-disk content of `p` after
replaying the trace. -/
def lastWrite (ops : List FileOp) (p : String) : Option Nat :=
  (ops.filterMap fun o =>
    match o with
    | .write q c => if q = p then some c else none
    | _ => none).getLast?

/-- Whether a trace respects a write-to-temp-then-rename discipline for the
file at `final`: the final path is never the direct target of a `write`
(content may only arrive at it via `rename`). -/
def atomicWriteDiscipline (ops : List FileOp) (final : String) : Bool :=
  ops.all fun o =>
    match o with
    | .write q _ => decide (q ≠ final)
    | _ => true

/-- A concrete HDF5 environment whose two archives both exist but report
different sample counts: three input maps, two target maps. -/
def envC1 : H5Env :=
  { inputExists := true, targetExists := true
    inputData := [[], [], []], targetData := [[], []] }

/-- A concrete `.npy` environment with the same count mismatch. -/
def envC1npy : NpyEnv :=
  { inputExists := true, targetExists := true
    inputMaps := [[], [], []], targetMaps := [[], []] }

/-- C1: the claim states that a Store construction over existing archives
with mismatched sample counts fails for either backend in any mode.  It is
false: `CAMELSDatasetHDF5.__init__` reads its sample count from the input
archive alone and never compares it with the target archive, so on this
mismatched pair construction succeeds in both lazy and cached mode. -/
theorem C1_counterexample :
    envC1.inputData.length ≠ envC1.targetData.length ∧
    exOk (CAMELSDatasetHDF5.init envC1 false) = true ∧
    exOk (CAMELSDatasetHDF5.init envC1 true) = true := by decide

/-- C1 (amended): on existing archives with mismatched sample counts, the
flat-array `.npy` backend fails at construction with a `ValueError`
(retaining no state), while the HDF5 backend performs no such check and its
construction succeeds in every access mode. -/
theorem C1_amended (env : NpyEnv) (henv : H5Env) (mode : Bool)
    (h1 : env.inputExists = true) (h2 : env.targetExists = true)
    (h3 : env.inputMaps.length ≠ env.targetMaps.length)
    (h4 : henv.inputExists = true) (h5 : henv.targetExists = true) :
    CAMELSDataset.init env =
      .error (.valueError "Input and target files have a different number of maps!") ∧
    exOk (CAMELSDatasetHDF5.init henv mode) = true := by
  constructor
  · simp [CAMELSDataset.init, h1, h2, h3]
  · simp [CAMELSDatasetHDF5.init, h4, h5, exOk]

/-- C1 witness: the amended statement instantiated at the concrete
mismatched environments. -/
theorem C1_amended_witness :
    CAMELSDataset.init envC1npy =
      .error (.valueError "Input and target files have a different number of maps!") ∧
    exOk (CAMELSDatasetHDF5.init envC1 false) = true :=
  C1_amended envC1npy envC1 false rfl rfl (by decide) rfl rfl

/-- A concrete exporter environment with no trained-weights file on disk. -/
def envC2 : ExportEnv := { weightsFileExists := false }

/-- C2: the claim states that export on a missing checkpoint raises
`CheckpointNotFoundError`.  It is false: on a missing weights file
`export_model_to_torchscript` prints its error messages and returns
normally (`exOk` holds), raising nothing. -/
theorem C2_counterexample :
    envC2.weightsFileExists = false ∧
    exOk (export_model_to_torchscript envC2) = true := by decide

/-- C2 (amended): for every environment in which the checkpoint file does
not exist, the export returns normally after printing an error that names
the expected path, performs no action at all — in particular it writes no
graph file and never trains a fallback model. -/
theorem C2_amended (env : ExportEnv) (h : env.weightsFileExists = false) :
    ∃ r : ExportResult,
      export_model_to_torchscript env = .ok r ∧
      ("Error: Trained weights file not found at " ++ weightsPath) ∈ r.log ∧
      (∀ p, ExportAction.writeGraph p ∉ r.actions) ∧
      ExportAction.trainFallback ∉ r.actions ∧
      r.actions = [] := by
  refine ⟨{ log := ["Error: Trained weights file not found at " ++ weightsPath,
                    "Please run train.py to train and save the model first."]
            actions := [] }, ?_, ?_, ?_, ?_, ?_⟩ <;>
    simp [export_model_to_torchscript, h]

/-- C2 witness: the amended statement at the concrete environment with no
weights file. -/
theorem C2_amended_witness :
    ∃ r : ExportResult,
      export_model_to_torchscript envC2 = .ok r ∧
      ("Error: Trained weights file not found at " ++ weightsPath) ∈ r.log ∧
      (∀ p, ExportAction.writeGraph p ∉ r.actions) ∧
      ExportAction.trainFallback ∉ r.actions ∧
      r.actions = [] :=
  C2_amended envC2 rfl

/-- C3: the train/validation split of `train_model` is deterministic in the
generator state: two runs of the split over the same dataset length with
the same seed produce the identical pair of index lists. -/
theorem C3_split_deterministic (n seed1 seed2 : Nat) (h : seed1 = seed2) :
    trainSplit n seed1 = trainSplit n seed2 := by rw [h]

/-- C3 witness: two invocations at length 100, seed 7. -/
theorem C3_split_deterministic_witness :
    trainSplit 100 7 = trainSplit 100 7 :=
  C3_split_deterministic 100 7 7 rfl

/-- C7: for every HDF5 archive pair and every in-range index, reading a
sample through a dataset constructed in cached mode and one constructed in
lazy mode returns bit-identical prepared tensor pairs. -/
theorem C7_cached_lazy_identical (env : H5Env) (dsC dsL : CAMELSDatasetHDF5) (idx : Nat)
    (hc : CAMELSDatasetHDF5.init env true = .ok dsC)
    (hl : CAMELSDatasetHDF5.init env false = .ok dsL)
    (hidx : idx < dsC.n_simulations) :
    CAMELSDatasetHDF5.getitem env dsC idx = CAMELSDatasetHDF5.getitem env dsL idx := by
  unfold CAMELSDatasetHDF5.init at hc hl
  cases hI : env.inputExists <;> rw [hI] at hc hl <;> simp at hc hl
  cases hT : env.targetExists <;> rw [hT] at hc hl <;> simp at hc hl
  rw [← hc, ← hl]
  simp [CAMELSDatasetHDF5.getitem]

/-- An HDF5 environment with one 1×1 map pair, for the C7 witness. -/
def envC7 : H5Env :=
  { inputExists := true, targetExists := true
    inputData := [[[FVal.fin 2]]], targetData := [[[FVal.fin 3]]] }

/-- The dataset `CAMELSDatasetHDF5.init envC7 true` constructs. -/
def dsC7cached : CAMELSDatasetHDF5 :=
  { n_simulations := 1, cache_in_memory := true
    input_cache := some envC7.inputData, target_cache := some envC7.targetData }

/-- The dataset `CAMELSDatasetHDF5.init envC7 false` constructs. -/
def dsC7lazy : CAMELSDatasetHDF5 :=
  { n_simulations := 1, cache_in_memory := false
    input_cache := none, target_cache := none }

/-- C7 witness: cached and lazy reads of sample 0 of the concrete
environment agree. -/
theorem C7_witness :
    CAMELSDatasetHDF5.getitem envC7 dsC7cached 0 =
      CAMELSDatasetHDF5.getitem envC7 dsC7lazy 0 :=
  C7_cached_lazy_identical envC7 dsC7cached dsC7lazy 0 rfl rfl (by decide)

/-- On a raw map whose values are all finite and non-negative, every value
of the log1p-transformed map is finite. -/
theorem mapLog1p_finite (m : Map2D)
    (hm : ∀ row ∈ m, ∀ v ∈ row, ∃ q : ℚ, 0 ≤ q ∧ v = FVal.fin q) :
    ∀ row ∈ mapLog1p m, ∀ v ∈ row, v.isFinite = true := by
  intro row hrow v hv
  simp only [mapLog1p, List.mem_map] at hrow
  obtain ⟨r0, hr0, rfl⟩ := hrow
  simp only [List.mem_map] at hv
  obtain ⟨v0, hv0, rfl⟩ := hv
  obtain ⟨q, hq, rfl⟩ := hm r0 hr0 v0 hv0
  have h1 : ¬ (q < -1) := by linarith
  have h2 : q ≠ -1 := by intro h0; rw [h0] at hq; norm_num at hq
  simp [log1p, FVal.isFinite, h1, h2]

/-- C8: the sample transform is a deterministic pure function — two
applications to the same raw pair are bit-identical; on raw maps whose
values are finite and non-negative every transformed value is finite; and
`__getitem__` leaves the dataset's stored raw arrays unmodified. -/
theorem C8_transform_pure (im tm : Map2D) (ds : CAMELSDataset) (idx : Nat)
    (him : ∀ row ∈ im, ∀ v ∈ row, ∃ q : ℚ, 0 ≤ q ∧ v = FVal.fin q)
    (htm : ∀ row ∈ tm, ∀ v ∈ row, ∃ q : ℚ, 0 ≤ q ∧ v = FVal.fin q) :
    prepare im tm = prepare im tm ∧
    (∀ row ∈ mapLog1p im, ∀ v ∈ row, v.isFinite = true) ∧
    (∀ row ∈ mapLog1p tm, ∀ v ∈ row, v.isFinite = true) ∧
    (CAMELSDataset.getitem ds idx).2 = ds :=
  ⟨rfl, mapLog1p_finite im him, mapLog1p_finite tm htm, rfl⟩

/-- C8 witness: the statement at a concrete one-element raw pair and an
empty dataset. -/
theorem C8_transform_pure_witness :
    prepare [[FVal.fin 2]] [[FVal.fin 0]] = prepare [[FVal.fin 2]] [[FVal.fin 0]] ∧
    (∀ row ∈ mapLog1p [[FVal.fin 2]], ∀ v ∈ row, v.isFinite = true) ∧
    (∀ row ∈ mapLog1p [[FVal.fin 0]], ∀ v ∈ row, v.isFinite = true) ∧
    (CAMELSDataset.getitem { input_maps := [], target_maps := [] } 0).2 =
      { input_maps := [], target_maps := [] } :=
  C8_transform_pure [[FVal.fin 2]] [[FVal.fin 0]] { input_maps := [], target_maps := [] } 0
    (by intro row hrow v hv
        simp at hrow
        subst hrow
        simp at hv
        subst hv
        exact ⟨2, by norm_num, rfl⟩)
    (by intro row hrow v hv
        simp at hrow
        subst hrow
        simp at hv
        subst hv
        exact ⟨0, by norm_num, rfl⟩)

/-- Drawing `pool.length` elements from a pool yields a permutation of the
pool. -/
theorem drawPerm_perm : ∀ (k : Nat) (pool : List Nat) (s : Nat),
    pool.length = k → (drawPerm k pool s).Perm pool := by
  intro k
  induction k with
  | zero =>
    intro pool s h
    simp [drawPerm, List.length_eq_zero.mp h]
  | succ k ih =>
    intro pool s h
    have hp : 0 < pool.length := by omega
    rw [drawPerm, dif_pos hp]
    have hv : pool.get ⟨s % pool.length, Nat.mod_lt _ hp⟩ ∈ pool := pool.get_mem _ _
    have hlen : (pool.erase (pool.get ⟨s % pool.length, Nat.mod_lt _ hp⟩)).length = k := by
      rw [List.length_erase_of_mem hv]
      omega
    exact ((ih _ (lcg s) hlen).cons _).trans (List.perm_cons_erase hv).symm

/-- `randperm n seed` is a permutation of the index range `[0, n)`. -/
theorem randperm_perm (n seed : Nat) : (randperm n seed).Perm (List.range n) :=
  drawPerm_perm n (List.range n) seed (List.length_range n)

/-- The random permutation has length `n`. -/
theorem randperm_length (n seed : Nat) : (randperm n seed).length = n :=
  (randperm_perm n seed).length_eq.trans (List.length_range n)

/-- The two halves of the train/validation split are the two contiguous
slices of the random permutation: concatenated they equal it. -/
theorem trainSplit_append (n seed : Nat) :
    (trainSplit n seed).1 ++ (trainSplit n seed).2 = randperm n seed := by
  have hdlen : ((randperm n seed).drop (n - n / 10)).length = n / 10 := by
    rw [List.length_drop, randperm_length]
    omega
  have htake : ((randperm n seed).drop (n - n / 10)).take (n / 10) =
      (randperm n seed).drop (n - n / 10) :=
    List.take_of_length_le (by rw [hdlen])
  simp only [trainSplit, random_split, valSize, htake]
  exact List.take_append_drop _ _

/-- Validation slice of the split has exactly `⌊n / 10⌋` indices. -/
theorem trainSplit_val_length (n seed : Nat) :
    (trainSplit n seed).2.length = n / 10 := by
  simp only [trainSplit, random_split, valSize]
  rw [List.length_take, List.length_drop, randperm_length]
  omega

/-- Training slice of the split has the remaining `n - ⌊n / 10⌋` indices. -/
theorem trainSplit_train_length (n seed : Nat) :
    (trainSplit n seed).1.length = n - n / 10 := by
  simp only [trainSplit, random_split, valSize]
  rw [List.length_take, randperm_length]
  omega

/-- C6: the split of a length-`n` dataset at validation fraction 0.1 has
exactly `⌊n / 10⌋` validation indices and `n - ⌊n / 10⌋` training indices;
the two index lists are duplicate-free, disjoint, and together they are a
permutation of the full index range `[0, n)` — every index is covered
exactly once. -/
theorem C6_split_partition (n seed : Nat) :
    (trainSplit n seed).2.length = n / 10 ∧
    (trainSplit n seed).1.length = n - n / 10 ∧
    ((trainSplit n seed).1 ++ (trainSplit n seed).2).Perm (List.range n) ∧
    (trainSplit n seed).1.Nodup ∧
    (trainSplit n seed).2.Nodup ∧
    (trainSplit n seed).1.Disjoint (trainSplit n seed).2 := by
  have hall : ((trainSplit n seed).1 ++ (trainSplit n seed).2).Perm (List.range n) := by
    rw [trainSplit_append]
    exact randperm_perm n seed
  have hnd : ((trainSplit n seed).1 ++ (trainSplit n seed).2).Nodup :=
    hall.nodup_iff.mpr (List.nodup_range n)
  rw [List.nodup_append] at hnd
  exact ⟨trainSplit_val_length n seed, trainSplit_train_length n seed, hall,
    hnd.1, hnd.2.1, hnd.2.2⟩

/-- Pure description of one epoch's effect on the loop state (the value
`runEpoch` computes when both loaders are non-empty). -/
def stepState (env : TrainEnv) (e : Nat) (st : RunState) : RunState :=
  if ltBest (avgValLoss env e) st.best_val_loss then
    { st with
        best_val_loss := some (avgValLoss env e)
        ops := st.ops ++ [.makedirs WEIGHTS_DIR, .write bestModelPath e] }
  else
    st

/-- The loop state after the first `e` epochs of a run. -/
def stateAfter (env : TrainEnv) : Nat → RunState
  | 0 => initState
  | e + 1 => stepState env e (stateAfter env e)

/-- Unfolding of `stepState` when the new loss improves on the best. -/
theorem stepState_pos (env : TrainEnv) (e : Nat) (st : RunState)
    (h : ltBest (avgValLoss env e) st.best_val_loss = true) :
    stepState env e st =
      { st with
          best_val_loss := some (avgValLoss env e)
          ops := st.ops ++ [.makedirs WEIGHTS_DIR, .write bestModelPath e] } := by
  unfold stepState
  rw [h]
  rfl

/-- Unfolding of `stepState` when the new loss does not improve. -/
theorem stepState_neg (env : TrainEnv) (e : Nat) (st : RunState)
    (h : ltBest (avgValLoss env e) st.best_val_loss = false) :
    stepState env e st = st := by
  unfold stepState
  rw [h]
  rfl

/-- Comparison against a finite best record. -/
theorem ltBest_some (v b : ℚ) : (ltBest v (some b) = true) ↔ v < b := by
  simp [ltBest]

/-- On a dataset of at least 10 samples both loaders are non-empty, so one
epoch never raises and acts as `stepState`. -/
theorem runEpoch_ok (env : TrainEnv) (e : Nat) (st : RunState) (hn : 10 ≤ env.n) :
    runEpoch env e st = .ok (stepState env e st) := by
  have hvb : numBatches (valSize env.n) ≠ 0 := by
    unfold numBatches BATCH_SIZE valSize
    omega
  have htb : numBatches (env.n - valSize env.n) ≠ 0 := by
    unfold numBatches BATCH_SIZE valSize
    omega
  have h1 : pydiv (sumLosses (env.trainBatchLoss e) (numBatches (env.n - valSize env.n)))
      (numBatches (env.n - valSize env.n)) =
      .ok (sumLosses (env.trainBatchLoss e) (numBatches (env.n - valSize env.n)) /
        ((numBatches (env.n - valSize env.n) : ℚ))) := by
    unfold pydiv
    rw [if_neg htb]
  have h2 : pydiv (sumLosses (env.valBatchLoss e) (numBatches (valSize env.n)))
      (numBatches (valSize env.n)) = .ok (avgValLoss env e) := by
    unfold pydiv avgValLoss
    rw [if_neg hvb]
  unfold runEpoch
  simp only [h1, h2]
  cases hc : ltBest (avgValLoss env e) st.best_val_loss with
  | true =>
    rw [stepState_pos env e st hc]
    rfl
  | false =>
    rw [stepState_neg env e st hc]
    rfl

/-- The epoch loop distributes over list append. -/
theorem runEpochsFrom_append (env : TrainEnv) (l1 l2 : List Nat) (st : RunState) :
    runEpochsFrom env (l1 ++ l2) st =
      (runEpochsFrom env l1 st).bind (fun st1 => runEpochsFrom env l2 st1) := by
  induction l1 generalizing st with
  | nil => cases runEpochsFrom env l2 st <;> rfl
  | cons e rest ih =>
    have h1 : runEpochsFrom env (e :: (rest ++ l2)) st =
        (runEpoch env e st).bind (fun st1 => runEpochsFrom env (rest ++ l2) st1) := rfl
    have h2 : runEpochsFrom env (e :: rest) st =
        (runEpoch env e st).bind (fun st1 => runEpochsFrom env rest st1) := rfl
    rw [List.cons_append, h1, h2]
    cases runEpoch env e st with
    | error err => rfl
    | ok st1 => exact ih st1

/-- On a dataset of at least 10 samples, running the first `N` epochs never
raises and produces `stateAfter env N`. -/
theorem runEpochs_ok (env : TrainEnv) (hn : 10 ≤ env.n) (N : Nat) :
    runEpochsFrom env (List.range N) initState = .ok (stateAfter env N) := by
  induction N with
  | zero => rfl
  | succ N ih =>
    rw [List.range_succ, runEpochsFrom_append, ih]
    show (runEpoch env N (stateAfter env N)).bind _ = _
    rw [runEpoch_ok env N _ hn]
    rfl

/-- On a dataset of at least 10 samples the whole run completes normally,
returning the finalized state of the epoch loop. -/
theorem train_model_ok (env : TrainEnv) (hn : 10 ≤ env.n) :
    train_model env = .ok (finalizeRun env (stateAfter env NUM_EPOCHS)) := by
  show (runEpochsFrom env (List.range NUM_EPOCHS) initState).bind
      (fun st => pure (finalizeRun env st)) = _
  rw [runEpochs_ok env hn]
  rfl

/-- The best-so-far record after `e` epochs is the strict running minimum:
a value is below it exactly when it is below every previous epoch's average
validation loss. -/
theorem ltBest_stateAfter (env : TrainEnv) :
    ∀ (e : Nat) (v : ℚ),
      (ltBest v (stateAfter env e).best_val_loss = true ↔
        ∀ i < e, v < avgValLoss env i) := by
  intro e
  induction e with
  | zero =>
    intro v
    simp [stateAfter, initState, ltBest]
  | succ e ih =>
    intro v
    show ltBest v (stepState env e (stateAfter env e)).best_val_loss = true ↔ _
    cases hc : ltBest (avgValLoss env e) (stateAfter env e).best_val_loss with
    | true =>
      have hprev := (ih (avgValLoss env e)).mp hc
      rw [stepState_pos env e _ hc]
      show ltBest v (some (avgValLoss env e)) = true ↔ _
      rw [ltBest_some]
      constructor
      · intro hv i hi
        rcases Nat.lt_succ_iff_lt_or_eq.mp hi with h | h
        · exact lt_trans hv (hprev i h)
        · rw [h]; exact hv
      · intro h
        exact h e (Nat.lt_succ_self e)
    | false =>
      have hex : ∃ j, j < e ∧ avgValLoss env j ≤ avgValLoss env e := by
        by_contra hno
        push_neg at hno
        have : ltBest (avgValLoss env e) (stateAfter env e).best_val_loss = true :=
          (ih (avgValLoss env e)).mpr (fun i hi => hno i hi)
        rw [hc] at this
        exact Bool.false_ne_true this
      rw [stepState_neg env e _ hc, ih v]
      constructor
      · intro h i hi
        rcases Nat.lt_succ_iff_lt_or_eq.mp hi with h2 | h2
        · exact h i h2
        · rw [h2]
          obtain ⟨j, hj, hle⟩ := hex
          exact lt_of_lt_of_le (h j hj) hle
      · intro h i hi
        exact h i (Nat.lt_succ_of_lt hi)

/-- Characterization of the best-checkpoint writes in the first `N` epochs:
epoch `e` writes the best file exactly when `e` ran and its average
validation loss is strictly below every previous epoch's. -/
theorem write_mem_stateAfter (env : TrainEnv) (e : Nat) :
    ∀ N, (FileOp.write bestModelPath e ∈ (stateAfter env N).ops ↔
      (e < N ∧ ∀ i < e, avgValLoss env e < avgValLoss env i)) := by
  intro N
  induction N with
  | zero => simp [stateAfter, initState]
  | succ N ih =>
    show FileOp.write bestModelPath e ∈ (stepState env N (stateAfter env N)).ops ↔ _
    cases hc : ltBest (avgValLoss env N) (stateAfter env N).best_val_loss with
    | false =>
      rw [stepState_neg env N _ hc, ih]
      constructor
      · rintro ⟨h1, h2⟩
        exact ⟨Nat.lt_succ_of_lt h1, h2⟩
      · rintro ⟨h1, h2⟩
        rcases Nat.lt_succ_iff_lt_or_eq.mp h1 with h | h
        · exact ⟨h, h2⟩
        · subst h
          have : ltBest (avgValLoss env e) (stateAfter env e).best_val_loss = true :=
            (ltBest_stateAfter env e (avgValLoss env e)).mpr h2
          rw [hc] at this
          exact absurd this Bool.false_ne_true
    | true =>
      rw [stepState_pos env N _ hc]
      show FileOp.write bestModelPath e ∈
          (stateAfter env N).ops ++ [.makedirs WEIGHTS_DIR, .write bestModelPath N] ↔ _
      rw [List.mem_append, ih]
      have hN := (ltBest_stateAfter env N (avgValLoss env N)).mp hc
      constructor
      · rintro (⟨h1, h2⟩ | h)
        · exact ⟨Nat.lt_succ_of_lt h1, h2⟩
        · simp only [List.mem_cons, List.mem_singleton, List.not_mem_nil, or_false] at h
          rcases h with h | h
          · exact absurd h (by simp)
          · have he : e = N := (FileOp.write.inj h).2
            subst he
            exact ⟨Nat.lt_succ_self e, hN⟩
      · rintro ⟨h1, h2⟩
        rcases Nat.lt_succ_iff_lt_or_eq.mp h1 with h | h
        · exact Or.inl ⟨h, h2⟩
        · subst h
          exact Or.inr (by simp)

/-- No rename operation ever appears in the epoch loop's trace. -/
theorem rename_not_mem_stateAfter (env : TrainEnv) (s d : String) :
    ∀ N, FileOp.rename s d ∉ (stateAfter env N).ops := by
  intro N
  induction N with
  | zero => simp [stateAfter, initState]
  | succ N ih =>
    show FileOp.rename s d ∉ (stepState env N (stateAfter env N)).ops
    cases hc : ltBest (avgValLoss env N) (stateAfter env N).best_val_loss with
    | false =>
      rw [stepState_neg env N _ hc]
      exact ih
    | true =>
      rw [stepState_pos env N _ hc]
      intro h
      rcases List.mem_append.mp h with h | h
      · exact ih h
      · simp at h

/-- The finalize step never adds or removes a best-checkpoint write. -/
theorem write_best_mem_finalize (env : TrainEnv) (st : RunState) (e : Nat) :
    (FileOp.write bestModelPath e ∈ (finalizeRun env st).ops ↔
      FileOp.write bestModelPath e ∈ st.ops) := by
  have hne : bestModelPath ≠ weightsPath := by decide
  unfold finalizeRun
  cases hf : env.finalWriteFails with
  | true => simp
  | false => simp [List.mem_append, hne]

/-- The finalize step never adds a rename. -/
theorem rename_not_mem_finalize (env : TrainEnv) (st : RunState) (s d : String)
    (h : FileOp.rename s d ∉ st.ops) :
    FileOp.rename s d ∉ (finalizeRun env st).ops := by
  unfold finalizeRun
  cases hf : env.finalWriteFails with
  | true => simpa using h
  | false =>
    intro hmem
    rcases List.mem_append.mp hmem with h2 | h2
    · exact h h2
    · simp at h2

/-- A trace holding a direct write to a path violates the atomic
write-to-temp-then-rename discipline for that path. -/
theorem atomicWriteDiscipline_false_of_mem (ops : List FileOp) (p : String) (c : Nat)
    (h : FileOp.write p c ∈ ops) : atomicWriteDiscipline ops p = false := by
  unfold atomicWriteDiscipline
  rw [Bool.eq_false_iff]
  intro hall
  rw [List.all_eq_true] at hall
  have := hall _ h
  simp at this

/-- The filesystem trace of a run (empty when the run raised). -/
def runOps (env : TrainEnv) : List FileOp :=
  match train_model env with
  | .ok st => st.ops
  | .error _ => []

/-- A concrete run environment: 10 samples, constant losses, working
disk. -/
def envC4 : TrainEnv :=
  { n := 10, seed := 0, trainBatchLoss := fun _ _ => 0, valBatchLoss := fun _ _ => 0
    finalWriteFails := false }

/-- C4: the claim asserts the best-checkpoint write follows a
write-to-temp-then-rename (or equivalent) discipline.  It is false: in this
concrete run the trace writes `bestModelPath` directly, violating the
discipline. -/
theorem C4_counterexample :
    atomicWriteDiscipline (runOps envC4) bestModelPath = false := by
  have h10 : 10 ≤ envC4.n := by decide
  have hrun := train_model_ok envC4 h10
  have hmem : FileOp.write bestModelPath 0 ∈ (stateAfter envC4 NUM_EPOCHS).ops :=
    (write_mem_stateAfter envC4 0 NUM_EPOCHS).mpr
      ⟨by decide, fun i hi => absurd hi (Nat.not_lt_zero i)⟩
  have hmem2 : FileOp.write bestModelPath 0 ∈
      (finalizeRun envC4 (stateAfter envC4 NUM_EPOCHS)).ops :=
    (write_best_mem_finalize envC4 _ 0).mpr hmem
  have hops : runOps envC4 = (finalizeRun envC4 (stateAfter envC4 NUM_EPOCHS)).ops := by
    unfold runOps
    rw [hrun]
  rw [hops]
  exact atomicWriteDiscipline_false_of_mem _ _ 0 hmem2

/-- C4 (amended): in every completed run over at least 10 samples the best
checkpoint is persisted by writing directly to its final path — epoch 0
itself writes `bestModelPath` — and the trace contains no rename operation
at all, so no write-to-temp-then-rename discipline protects the
best-checkpoint file against a crash mid-write. -/
theorem C4_direct_write (env : TrainEnv) (st : RunState)
    (hn : 10 ≤ env.n) (hrun : train_model env = .ok st) :
    FileOp.write bestModelPath 0 ∈ st.ops ∧
    (∀ s d, FileOp.rename s d ∉ st.ops) ∧
    atomicWriteDiscipline st.ops bestModelPath = false := by
  rw [train_model_ok env hn] at hrun
  have hst : st = finalizeRun env (stateAfter env NUM_EPOCHS) := by
    injection hrun with h
    exact h.symm
  subst hst
  have hmem : FileOp.write bestModelPath 0 ∈
      (finalizeRun env (stateAfter env NUM_EPOCHS)).ops :=
    (write_best_mem_finalize env _ 0).mpr
      ((write_mem_stateAfter env 0 NUM_EPOCHS).mpr
        ⟨by decide, fun i hi => absurd hi (Nat.not_lt_zero i)⟩)
  exact ⟨hmem,
    fun s d => rename_not_mem_finalize env _ s d (rename_not_mem_stateAfter env s d NUM_EPOCHS),
    atomicWriteDiscipline_false_of_mem _ _ 0 hmem⟩

/-- A second concrete environment for the C4 witness. -/
def envC4w : TrainEnv :=
  { n := 20, seed := 1, trainBatchLoss := fun _ _ => 1, valBatchLoss := fun _ _ => 1
    finalWriteFails := false }

/-- C4 witness: the amended statement at a concrete 20-sample run. -/
theorem C4_direct_write_witness :
    FileOp.write bestModelPath 0 ∈ (finalizeRun envC4w (stateAfter envC4w NUM_EPOCHS)).ops ∧
    (∀ s d, FileOp.rename s d ∉ (finalizeRun envC4w (stateAfter envC4w NUM_EPOCHS)).ops) ∧
    atomicWriteDiscipline (finalizeRun envC4w (stateAfter envC4w NUM_EPOCHS)).ops
      bestModelPath = false :=
  C4_direct_write envC4w (finalizeRun envC4w (stateAfter envC4w NUM_EPOCHS))
    (by decide) (train_model_ok envC4w (by decide))

/-- C5: in every completed run, the best checkpoint file is written in
epoch `e` exactly when `e` belongs to the run and its average validation
loss is strictly lower than every previous epoch's (best-so-far starts at
infinity, so epoch 0 always writes); consequently under a strictly
increasing validation-loss sequence the only best-checkpoint write is the
one of epoch 0, which is never overwritten. -/
theorem C5_best_overwrite_iff (env : TrainEnv) (st : RunState) (e : Nat)
    (hn : 10 ≤ env.n) (hrun : train_model env = .ok st) :
    (FileOp.write bestModelPath e ∈ st.ops ↔
      (e < NUM_EPOCHS ∧ ∀ i < e, avgValLoss env e < avgValLoss env i)) ∧
    ((∀ i j, i < j → j < NUM_EPOCHS → avgValLoss env i < avgValLoss env j) →
      (FileOp.write bestModelPath e ∈ st.ops ↔ e = 0)) := by
  rw [train_model_ok env hn] at hrun
  have hst : st = finalizeRun env (stateAfter env NUM_EPOCHS) := by
    injection hrun with h
    exact h.symm
  subst hst
  have hchar : FileOp.write bestModelPath e ∈
      (finalizeRun env (stateAfter env NUM_EPOCHS)).ops ↔
      (e < NUM_EPOCHS ∧ ∀ i < e, avgValLoss env e < avgValLoss env i) := by
    rw [write_best_mem_finalize, write_mem_stateAfter]
  refine ⟨hchar, ?_⟩
  intro hmono
  rw [hchar]
  constructor
  · rintro ⟨h1, h2⟩
    by_contra hne
    have hpos : 0 < e := Nat.pos_of_ne_zero hne
    have ha := h2 0 hpos
    have hb := hmono 0 e hpos h1
    linarith
  · rintro rfl
    exact ⟨by decide, fun i hi => absurd hi (Nat.not_lt_zero i)⟩

/-- A concrete run environment with strictly increasing validation loss. -/
def envC5 : TrainEnv :=
  { n := 10, seed := 3, trainBatchLoss := fun _ _ => 1
    valBatchLoss := fun e _ => (e : ℚ), finalWriteFails := false }

/-- C5 witness: the statement at epoch 0 of a concrete 10-sample run. -/
theorem C5_witness :
    (FileOp.write bestModelPath 0 ∈ (finalizeRun envC5 (stateAfter envC5 NUM_EPOCHS)).ops ↔
      (0 < NUM_EPOCHS ∧ ∀ i < 0, avgValLoss envC5 0 < avgValLoss envC5 i)) ∧
    ((∀ i j, i < j → j < NUM_EPOCHS → avgValLoss envC5 i < avgValLoss envC5 j) →
      (FileOp.write bestModelPath 0 ∈ (finalizeRun envC5 (stateAfter envC5 NUM_EPOCHS)).ops ↔
        0 = 0)) :=
  C5_best_overwrite_iff envC5 (finalizeRun envC5 (stateAfter envC5 NUM_EPOCHS)) 0
    (by decide) (train_model_ok envC5 (by decide))

/-- C9: after the epoch loop the orchestrator always reaches the finalize
step; with a working disk it unconditionally writes the final checkpoint to
`weightsPath`; when the final write fails, the failure is reported in the
log, the operation trace — and hence the best-checkpoint file's content —
is unchanged, and the run still returns normally (the exception does not
propagate). -/
theorem C9_final_checkpoint (env : TrainEnv) (st : RunState)
    (hrun : runEpochsFrom env (List.range NUM_EPOCHS) initState = .ok st) :
    train_model env = .ok (finalizeRun env st) ∧
    (env.finalWriteFails = false →
      FileOp.write weightsPath NUM_EPOCHS ∈ (finalizeRun env st).ops) ∧
    (env.finalWriteFails = true →
      ("---! AN ERROR OCCURRED DURING SAVING !---" ∈ (finalizeRun env st).log ∧
       (finalizeRun env st).ops = st.ops ∧
       lastWrite (finalizeRun env st).ops bestModelPath =
         lastWrite st.ops bestModelPath)) := by
  refine ⟨?_, ?_, ?_⟩
  · show (runEpochsFrom env (List.range NUM_EPOCHS) initState).bind _ = _
    rw [hrun]
    rfl
  · intro hf
    unfold finalizeRun
    rw [hf]
    simp
  · intro hf
    unfold finalizeRun
    rw [hf]
    simp

/-- A concrete run environment whose final checkpoint write fails. -/
def envC9 : TrainEnv :=
  { n := 10, seed := 0, trainBatchLoss := fun _ _ => 0, valBatchLoss := fun _ _ => 0
    finalWriteFails := true }

/-- C9 witness: the statement at the concrete failing-disk run. -/
theorem C9_witness :
    train_model envC9 = .ok (finalizeRun envC9 (stateAfter envC9 NUM_EPOCHS)) ∧
    (envC9.finalWriteFails = false →
      FileOp.write weightsPath NUM_EPOCHS ∈
        (finalizeRun envC9 (stateAfter envC9 NUM_EPOCHS)).ops) ∧
    (envC9.finalWriteFails = true →
      ("---! AN ERROR OCCURRED DURING SAVING !---" ∈
        (finalizeRun envC9 (stateAfter envC9 NUM_EPOCHS)).log ∧
       (finalizeRun envC9 (stateAfter envC9 NUM_EPOCHS)).ops =
         (stateAfter envC9 NUM_EPOCHS).ops ∧
       lastWrite (finalizeRun envC9 (stateAfter envC9 NUM_EPOCHS)).ops bestModelPath =
         lastWrite (stateAfter envC9 NUM_EPOCHS).ops bestModelPath)) :=
  C9_final_checkpoint envC9 (stateAfter envC9 NUM_EPOCHS)
    (runEpochs_ok envC9 (by decide) NUM_EPOCHS)

/-- On a dataset of fewer than 10 samples, every epoch raises
`ZeroDivisionError`: for `n = 0` already the training-phase average, for
`0 < n < 10` the validation-phase average (zero validation batches). -/
theorem runEpoch_err (env : TrainEnv) (e : Nat) (st : RunState) (hn : env.n < 10) :
    runEpoch env e st = .error PyError.zeroDivision := by
  simp only [runEpoch, pydiv]
  rcases Nat.eq_zero_or_pos env.n with h0 | hpos
  · have ht : numBatches (env.n - valSize env.n) = 0 := by
      unfold numBatches BATCH_SIZE valSize
      omega
    rw [if_pos ht]
  · have ht : numBatches (env.n - valSize env.n) ≠ 0 := by
      unfold numBatches BATCH_SIZE valSize
      omega
    have hv : numBatches (valSize env.n) = 0 := by
      unfold numBatches BATCH_SIZE valSize
      omega
    rw [if_neg ht, if_pos hv]

/-- On a dataset of fewer than 10 samples the epoch loop raises in its very
first epoch. -/
theorem runEpochs_err (env : TrainEnv) (hn : env.n < 10) :
    runEpochsFrom env (List.range NUM_EPOCHS) initState = .error PyError.zeroDivision := by
  have h15 : List.range NUM_EPOCHS = 0 :: List.range' 1 14 := by decide
  rw [h15]
  show (runEpoch env 0 initState).bind _ = _
  rw [runEpoch_err env 0 initState hn]
  rfl

/-- C10: on a dataset of fewer than 10 samples the validation split is
empty (and it is empty only then); for a non-empty such dataset the
training loader is non-empty while the validation loader has zero batches,
so the first epoch's validation average divides by zero; the run raises
`ZeroDivisionError` for every length below 10 and completes normally
exactly for lengths of at least 10. -/
theorem C10_short_dataset (env : TrainEnv) :
    ((trainSplit env.n env.seed).2 = [] ↔ env.n < 10) ∧
    (0 < env.n → env.n < 10 →
      numBatches (env.n - valSize env.n) ≠ 0 ∧ numBatches (valSize env.n) = 0) ∧
    (env.n < 10 → train_model env = .error PyError.zeroDivision) ∧
    (exOk (train_model env) = true ↔ 10 ≤ env.n) := by
  have herr : env.n < 10 → train_model env = .error PyError.zeroDivision := by
    intro hn
    show (runEpochsFrom env (List.range NUM_EPOCHS) initState).bind _ = _
    rw [runEpochs_err env hn]
    rfl
  refine ⟨?_, ?_, herr, ?_⟩
  · constructor
    · intro h
      have hlen := trainSplit_val_length env.n env.seed
      rw [h] at hlen
      simp at hlen
      omega
    · intro h
      have hlen := trainSplit_val_length env.n env.seed
      have h0 : env.n / 10 = 0 := by omega
      rw [h0] at hlen
      exact List.length_eq_zero.mp hlen
  · intro h1 h2
    constructor
    · unfold numBatches BATCH_SIZE valSize
      omega
    · unfold numBatches BATCH_SIZE valSize
      omega
  · constructor
    · intro hok
      by_contra hlt
      push_neg at hlt
      rw [herr hlt] at hok
      simp [exOk] at hok
    · intro h10
      rw [train_model_ok env h10]
      rfl

/-- A concrete run environment over a 5-sample dataset. -/
def envC10 : TrainEnv :=
  { n := 5, seed := 2, trainBatchLoss := fun _ _ => 0, valBatchLoss := fun _ _ => 0
    finalWriteFails := false }

/-- C10 witness: at length 5 the validation split is empty and the run
raises `ZeroDivisionError`. -/
theorem C10_witness :
    (trainSplit envC10.n envC10.seed).2 = [] ∧
    train_model envC10 = .error PyError.zeroDivision :=
  ⟨((C10_short_dataset envC10).1).mpr (by decide),
   (C10_short_dataset envC10).2.2.1 (by decide)⟩

end Bayronik
